import Mathlib

set_option maxRecDepth 4000

/-!
Verification development for the scholar backend (src/index.js and
src/schemas/insights.schema.js): a shallow embedding of the session
processing pipeline, the insights/outline schema validators, the
model-output sanitizer and the JSON parsing step, together with proofs of
the specified properties.
-/

namespace Scholar

/-- The backtick character, written via its code point. -/
def backtick : Char := Char.ofNat 96

/-- The opening curly brace character. -/
def lbrace : Char := Char.ofNat 123

/-- The closing curly brace character. -/
def rbrace : Char := Char.ofNat 125

/-- Whitespace as recognised by JavaScript `String.prototype.trim`
(restricted to the ASCII range, which is all the repository's strings use):
space, tab, newline, carriage return, vertical tab, form feed. -/
def isJsWhitespace (c : Char) : Bool :=
  c = ' ' || c = '\t' || c = '\n' || c = '\r' || c = Char.ofNat 11 || c = Char.ofNat 12

/-- Drop trailing whitespace, as the right half of JS `trim`. -/
def trimRightChars (l : List Char) : List Char :=
  (l.reverse.dropWhile isJsWhitespace).reverse

/-- Model of JS `String.prototype.trim` on character lists. -/
def trimChars (l : List Char) : List Char :=
  trimRightChars (l.dropWhile isJsWhitespace)

/-- Model of JS `String.prototype.trim` on strings; used wherever
`index.js` calls `.trim()`. -/
def jsTrim (s : String) : String :=
  ⟨trimChars s.data⟩

/-- The fence marker a model reply may wrap JSON in: three backticks. -/
def fenceMarker : List Char := [backtick, backtick, backtick]

/-- Case-insensitive test for a leading `json` language tag, modelling the
`(?:json)?` group of the regex `/^(fence)(?:json)?\s*/i` in
`generateInsightsFromTranscript`. -/
def matchesJsonTag (l : List Char) : Bool :=
  match l with
  | c1 :: rest1 =>
    (c1 = 'j' || c1 = 'J') &&
      match rest1 with
      | c2 :: rest2 =>
        (c2 = 's' || c2 = 'S') &&
          match rest2 with
          | c3 :: rest3 =>
            (c3 = 'o' || c3 = 'O') &&
              match rest3 with
              | c4 :: _ => (c4 = 'n' || c4 = 'N')
              | [] => false
          | [] => false
      | [] => false
  | [] => false

/-- The two regex replacements of `generateInsightsFromTranscript`, applied
to text already known to start with the fence marker: strip the opening
fence with optional `json` tag and following whitespace, then strip a
trailing whitespace run followed by a closing fence. -/
def stripFences (l : List Char) : List Char :=
  let a := l.drop 3
  let b := if matchesJsonTag a then a.drop 4 else a
  let c := b.dropWhile isJsWhitespace
  if c.reverse.take 3 = fenceMarker then
    ((c.reverse.drop 3).dropWhile isJsWhitespace).reverse
  else c

/-- The model-output sanitisation step of `generateInsightsFromTranscript`
(src/index.js lines 507-512): trim, then if the text starts with a fence
marker strip the opening and closing fences. -/
def sanitizeChars (l : List Char) : List Char :=
  let t := trimChars l
  if t.take 3 = fenceMarker then stripFences t else t

/-- A fenced code block around `inner`, with language tag `tag`
(`['j','s','o','n']` or `[]`), as a language model may emit. -/
def fencedChars (tag : List Char) (inner : List Char) : List Char :=
  fenceMarker ++ tag ++ ['\n'] ++ inner ++ ('\n' :: fenceMarker)

/-- The characters of the `json` language tag. -/
def jsonTagChars : List Char := ['j', 's', 'o', 'n']

/-! ## JSON values and `JSON.parse`

The pipeline hands sanitised model output to the JavaScript `JSON.parse`
builtin. We embed JSON values as an inductive type (numbers keep their
source lexeme, since no arithmetic is ever performed on them) and model
`JSON.parse` as a fuel-indexed recursive-descent parser over the JSON
grammar. -/

/-- A parsed JSON value. Object fields keep source order; numbers keep
their lexeme. -/
inductive Json where
  | null : Json
  | bool (b : Bool) : Json
  | num (lexeme : String) : Json
  | str (s : String) : Json
  | arr (elems : List Json) : Json
  | obj (fields : List (String × Json)) : Json

/-- Insignificant whitespace of the JSON grammar. -/
def isJsonWs (c : Char) : Bool :=
  c = ' ' || c = '\t' || c = '\n' || c = '\r'

/-- Skip insignificant JSON whitespace. -/
def skipWs (l : List Char) : List Char :=
  l.dropWhile isJsonWs

/-- Hexadecimal digit value, for `\u` escapes. -/
def hexVal (c : Char) : Option Nat :=
  if '0' ≤ c ∧ c ≤ '9' then some (c.toNat - '0'.toNat)
  else if 'a' ≤ c ∧ c ≤ 'f' then some (c.toNat - 'a'.toNat + 10)
  else if 'A' ≤ c ∧ c ≤ 'F' then some (c.toNat - 'A'.toNat + 10)
  else none

/-- Parse the body of a JSON string after the opening quote, handling the
escape sequences JSON allows; returns the decoded characters and the rest
of the input after the closing quote. -/
def parseStringChars : Nat → List Char → Option (List Char × List Char)
  | 0, _ => none
  | _ + 1, [] => none
  | fuel + 1, c :: cs =>
    if c = '"' then some ([], cs)
    else if c = '\\' then
      match cs with
      | [] => none
      | e :: cs2 =>
        if e = '"' ∨ e = '\\' ∨ e = '/' then
          (parseStringChars fuel cs2).map (fun p => (e :: p.1, p.2))
        else if e = 'n' then
          (parseStringChars fuel cs2).map (fun p => ('\n' :: p.1, p.2))
        else if e = 't' then
          (parseStringChars fuel cs2).map (fun p => ('\t' :: p.1, p.2))
        else if e = 'r' then
          (parseStringChars fuel cs2).map (fun p => ('\r' :: p.1, p.2))
        else if e = 'b' then
          (parseStringChars fuel cs2).map (fun p => (Char.ofNat 8 :: p.1, p.2))
        else if e = 'f' then
          (parseStringChars fuel cs2).map (fun p => (Char.ofNat 12 :: p.1, p.2))
        else if e = 'u' then
          match cs2 with
          | h1 :: h2 :: h3 :: h4 :: cs3 =>
            match hexVal h1, hexVal h2, hexVal h3, hexVal h4 with
            | some v1, some v2, some v3, some v4 =>
              (parseStringChars fuel cs3).map
                (fun p => (Char.ofNat (((v1 * 16 + v2) * 16 + v3) * 16 + v4) :: p.1, p.2))
            | _, _, _, _ => none
          | _ => none
        else none
    else if c.toNat < 32 then none
    else (parseStringChars fuel cs).map (fun p => (c :: p.1, p.2))

/-- Fractional part of a JSON number (empty when absent). -/
def parseFrac (l : List Char) : Option (List Char × List Char) :=
  match l with
  | '.' :: r =>
    let ds := r.takeWhile Char.isDigit
    if ds.isEmpty then none else some ('.' :: ds, r.dropWhile Char.isDigit)
  | _ => some ([], l)

/-- Exponent part of a JSON number (empty when absent). -/
def parseExp (l : List Char) : Option (List Char × List Char) :=
  match l with
  | c :: r =>
    if c = 'e' ∨ c = 'E' then
      let sgn := match r with
        | s :: _ => if s = '+' ∨ s = '-' then [s] else []
        | [] => []
      let r1 := r.drop sgn.length
      let ds := r1.takeWhile Char.isDigit
      if ds.isEmpty then none else some (c :: sgn ++ ds, r1.dropWhile Char.isDigit)
    else some ([], c :: r)
  | [] => some ([], [])

/-- Parse a JSON number, keeping its lexeme. -/
def parseNumber (l : List Char) : Option (Json × List Char) :=
  let (neg, l1) : List Char × List Char :=
    match l with
    | '-' :: r => (['-'], r)
    | _ => ([], l)
  match l1 with
  | [] => none
  | c :: r =>
    if c.isDigit then
      let (intPart, l2) : List Char × List Char :=
        if c = '0' then (['0'], r)
        else (l1.takeWhile Char.isDigit, l1.dropWhile Char.isDigit)
      match parseFrac l2 with
      | none => none
      | some (frac, l3) =>
        match parseExp l3 with
        | none => none
        | some (ex, l4) => some (Json.num ⟨neg ++ intPart ++ frac ++ ex⟩, l4)
    else none

/-- Match a literal keyword such as `true`, `false`, `null`. -/
def expectChars (pat : List Char) (l : List Char) : Option (List Char) :=
  match pat, l with
  | [], rest => some rest
  | p :: ps, c :: cs => if c = p then expectChars ps cs else none
  | _ :: _, [] => none

mutual

/-- Recursive-descent parser for a single JSON value; the input must start
with a non-whitespace character. -/
def parseValue : Nat → List Char → Option (Json × List Char)
  | 0, _ => none
  | _ + 1, [] => none
  | fuel + 1, c :: cs =>
    if c = lbrace then parseObject fuel (skipWs cs)
    else if c = '[' then parseArray fuel (skipWs cs)
    else if c = '"' then
      (parseStringChars (cs.length + 1) cs).map (fun p => (Json.str ⟨p.1⟩, p.2))
    else if c = 't' then (expectChars ['r', 'u', 'e'] cs).map (Json.bool true, ·)
    else if c = 'f' then (expectChars ['a', 'l', 's', 'e'] cs).map (Json.bool false, ·)
    else if c = 'n' then (expectChars ['u', 'l', 'l'] cs).map (Json.null, ·)
    else if c = '-' ∨ c.isDigit then parseNumber (c :: cs)
    else none

/-- Parse the inside of an array after `[` (whitespace already skipped). -/
def parseArray : Nat → List Char → Option (Json × List Char)
  | 0, _ => none
  | fuel + 1, l =>
    match l with
    | ']' :: r => some (Json.arr [], r)
    | _ =>
      match parseValue fuel l with
      | some (v, r) =>
        (parseArrayRest fuel r).map (fun p => (Json.arr (v :: p.1), p.2))
      | none => none

/-- After one array element: a comma and another element, or `]`. -/
def parseArrayRest : Nat → List Char → Option (List Json × List Char)
  | 0, _ => none
  | fuel + 1, l =>
    match skipWs l with
    | ']' :: r => some ([], r)
    | ',' :: r =>
      match parseValue fuel (skipWs r) with
      | some (v, r2) => (parseArrayRest fuel r2).map (fun p => (v :: p.1, p.2))
      | none => none
    | _ => none

/-- Parse the inside of an object after the opening brace (whitespace
already skipped). -/
def parseObject : Nat → List Char → Option (Json × List Char)
  | 0, _ => none
  | fuel + 1, l =>
    match l with
    | c :: r =>
      if c = rbrace then some (Json.obj [], r)
      else if c = '"' then
        match parseMember fuel (c :: r) with
        | some (kv, r2) =>
          (parseObjectRest fuel r2).map (fun p => (Json.obj (kv :: p.1), p.2))
        | none => none
      else none
    | [] => none

/-- After one object member: a comma and another member, or the closing
brace. -/
def parseObjectRest : Nat → List Char → Option (List (String × Json) × List Char)
  | 0, _ => none
  | fuel + 1, l =>
    match skipWs l with
    | c :: r =>
      if c = rbrace then some ([], r)
      else if c = ',' then
        match parseMember fuel (skipWs r) with
        | some (kv, r2) => (parseObjectRest fuel r2).map (fun p => (kv :: p.1, p.2))
        | none => none
      else none
    | [] => none

/-- One `"key": value` member of an object. -/
def parseMember : Nat → List Char → Option ((String × Json) × List Char)
  | 0, _ => none
  | fuel + 1, l =>
    match l with
    | '"' :: r =>
      match parseStringChars (r.length + 1) r with
      | some (k, r2) =>
        match skipWs r2 with
        | ':' :: r3 =>
          match parseValue fuel (skipWs r3) with
          | some (v, r4) => some ((⟨k⟩, v), r4)
          | none => none
        | _ => none
      | none => none
    | _ => none

end

/-- Model of the JavaScript `JSON.parse` builtin on character lists:
`some` of the parsed value, or `none` when the text is not valid JSON. -/
def jsonParse (l : List Char) : Option Json :=
  match parseValue (2 * l.length + 2) (skipWs l) with
  | some (v, r) => if skipWs r = [] then some v else none
  | none => none

/-! ## The zod schema validators

`src/schemas/insights.schema.js` defines `InsightsSchema`; `src/index.js`
defines `OutlineSchema`. `safeParse` on a zod object succeeds when every
declared key is present with the declared shape, and its `data` is the
object narrowed to the declared keys (unknown keys are stripped). -/

/-- JavaScript property access on a parsed object: when the source text
held duplicate keys the later one wins, so look the key up from the back. -/
def jsonGet (fields : List (String × Json)) (k : String) : Option Json :=
  fields.reverse.lookup k

/-- `z.string().min(minLen)` applied to an (optional) field value. -/
def zodString (minLen : Nat) : Option Json → Option String
  | some (Json.str s) => if minLen ≤ s.length then some s else none
  | _ => none

/-- Require every element of a JSON array to be a string (`z.array(z.string())`). -/
def asStrings : List Json → Option (List String)
  | [] => some []
  | Json.str s :: rest => (asStrings rest).map (s :: ·)
  | _ => none

/-- `z.array(z.string()).min(minItems).max(maxItems)` applied to a field value. -/
def zodStringArray (minItems maxItems : Nat) : Option Json → Option (List String)
  | some (Json.arr xs) =>
    match asStrings xs with
    | some ss => if minItems ≤ ss.length ∧ ss.length ≤ maxItems then some ss else none
    | none => none
  | _ => none

/-- `z.object(\x7b question: z.string().min(5), answer: z.string().min(5) \x7d)`:
one flashcard. -/
def zodFlashcard : Json → Option (String × String)
  | Json.obj fs =>
    match zodString 5 (jsonGet fs "question"), zodString 5 (jsonGet fs "answer") with
    | some q, some a => some (q, a)
    | _, _ => none
  | _ => none

/-- Validate every element of the `flashcards` array. -/
def asFlashcards : List Json → Option (List (String × String))
  | [] => some []
  | j :: rest =>
    match zodFlashcard j with
    | some p => (asFlashcards rest).map (p :: ·)
    | none => none

/-- `z.array(flashcard).max(maxItems)` applied to a field value (note: no
minimum). -/
def zodFlashcardArray (maxItems : Nat) : Option Json → Option (List (String × String))
  | some (Json.arr xs) =>
    match asFlashcards xs with
    | some cs => if cs.length ≤ maxItems then some cs else none
    | none => none
  | _ => none

/-- The JSON object of a single flashcard. -/
def mkFlashcardJson (p : String × String) : Json :=
  Json.obj [("question", Json.str p.1), ("answer", Json.str p.2)]

/-- The fields of a well-typed `InsightsResult` candidate. -/
def mkInsightsFields (s : String) (ks : List String) (cards : List (String × String))
    (ai : List String) : List (String × Json) :=
  [("summary", Json.str s),
   ("keyConcepts", Json.arr (ks.map Json.str)),
   ("flashcards", Json.arr (cards.map mkFlashcardJson)),
   ("actionItems", Json.arr (ai.map Json.str))]

/-- The JSON object shape of a validated `InsightsResult`, also used to
build candidate objects in the statements below. -/
def mkInsightsJson (s : String) (ks : List String) (cards : List (String × String))
    (ai : List String) : Json :=
  Json.obj (mkInsightsFields s ks cards ai)

/-- `InsightsSchema.safeParse` (src/schemas/insights.schema.js): `some`
of the narrowed data on success, `none` on failure. The contract:
`summary` a string of length ≥ 20, `keyConcepts` 1–6 strings,
`flashcards` at most 5 pairs with `question`/`answer` strings of
length ≥ 5, `actionItems` 1–5 strings. -/
def zodInsightsParse : Json → Option Json
  | Json.obj fs =>
    match zodString 20 (jsonGet fs "summary"),
          zodStringArray 1 6 (jsonGet fs "keyConcepts"),
          zodFlashcardArray 5 (jsonGet fs "flashcards"),
          zodStringArray 1 5 (jsonGet fs "actionItems") with
    | some s, some ks, some cards, some ai => some (mkInsightsJson s ks cards ai)
    | _, _, _, _ => none
  | _ => none

/-- Whether `InsightsSchema.safeParse(candidate).success` holds. -/
def insightsValid (j : Json) : Bool :=
  (zodInsightsParse j).isSome

/-- `z.string()` with no bound. -/
def zodAnyString : Option Json → Option String
  | some (Json.str s) => some s
  | _ => none

/-- One element of `OutlineSchema.highlights`:
`z.object(\x7b text, category, reason : z.string() \x7d)`. -/
def zodHighlight (j : Json) : Bool :=
  match j with
  | Json.obj fs =>
    ((zodAnyString (jsonGet fs "text")).isSome &&
     (zodAnyString (jsonGet fs "category")).isSome) &&
     (zodAnyString (jsonGet fs "reason")).isSome
  | _ => false

/-- `z.string().nullable().optional()`: the key may be absent, null, or a
string. -/
def zodOptNullableString (o : Option Json) : Bool :=
  match o with
  | none => true
  | some Json.null => true
  | some (Json.str _) => true
  | some _ => false

/-- `z.enum(["high","med","low"]).nullable().optional()`. -/
def zodOptNullablePriority (o : Option Json) : Bool :=
  match o with
  | none => true
  | some Json.null => true
  | some (Json.str s) => s = "high" || s = "med" || s = "low"
  | some _ => false

/-- One element of `OutlineSchema.exams` / `OutlineSchema.assignments`. -/
def zodDatedItem (j : Json) : Bool :=
  match j with
  | Json.obj fs =>
    ((zodAnyString (jsonGet fs "text")).isSome &&
     zodOptNullableString (jsonGet fs "date")) &&
     zodOptNullablePriority (jsonGet fs "priority")
  | _ => false

/-- A field that must be an array with every element satisfying `p`. -/
def zodArrayAll (p : Json → Bool) : Option Json → Bool
  | some (Json.arr xs) => xs.all p
  | _ => false

/-- Whether `OutlineSchema.safeParse(candidate).success` holds
(src/index.js lines 385-407). -/
def outlineValid (j : Json) : Bool :=
  match j with
  | Json.obj fs =>
    (zodArrayAll zodHighlight (jsonGet fs "highlights") &&
     zodArrayAll zodDatedItem (jsonGet fs "exams")) &&
     zodArrayAll zodDatedItem (jsonGet fs "assignments")
  | _ => false

/-! ## Generators

`generateInsightsFromTranscript` and `extractOutlineFromText` each issue
one chat-completion call; we abstract the provider as a function from the
request's varying input to either the reply text or an error message. -/

/-- `generateInsightsFromTranscript` (src/index.js lines 458-529): one
completion call on the transcript, then sanitise (trim and strip fences),
`JSON.parse`, validate against `InsightsSchema`, and return the *parsed*
value on success. -/
def generateInsightsFromTranscript (complete : String → Except String (List Char))
    (transcript : String) : Except String Json :=
  match complete transcript with
  | Except.error m => Except.error m
  | Except.ok raw =>
    match jsonParse (sanitizeChars raw) with
    | none => Except.error "LLM returned invalid JSON"
    | some parsed =>
      match zodInsightsParse parsed with
      | some _ => Except.ok parsed
      | none => Except.error "LLM output failed schema validation"

/-- `extractOutlineFromText` (src/index.js lines 409-437): the document
text is truncated to 20000 characters for the completion call; the reply
is only *trimmed* (no fence stripping), then `JSON.parse`d and validated
against `OutlineSchema`; the *parsed* value is returned on success. -/
def extractOutlineFromText (complete : List Char → Except String (List Char))
    (text : List Char) : Except String Json :=
  match complete (text.take 20000) with
  | Except.error m => Except.error m
  | Except.ok raw =>
    match jsonParse (trimChars raw) with
    | none => Except.error "Invalid outline JSON"
    | some parsed =>
      if outlineValid parsed then Except.ok parsed
      else Except.error "Outline schema validation failed"

/-! ## Sessions and the processing pipeline -/

/-- A session record as created by `POST /api/sessions`
(src/index.js lines 78-95). -/
structure Session where
  id : String
  eventId : Option String
  title : String
  audioPath : String
  audioFilename : String
  transcript : String
  insights : Option Json
  status : String
  progress : Nat
  error : Option String
  createdAt : String
  processedAt : Option String

/-- JavaScript `x || default` on an optional string (the empty string is
falsy). -/
def jsOrDefault (o : Option String) (d : String) : String :=
  match o with
  | some s => if s = "" then d else s
  | none => d

/-- The session created by `POST /api/sessions` before the pipeline
starts. -/
def newSession (id : String) (eventId : Option String) (title : Option String)
    (audioPath audioFilename createdAt : String) : Session :=
  { id := id
    eventId := eventId
    title := jsOrDefault title "Capture"
    audioPath := audioPath
    audioFilename := audioFilename
    transcript := ""
    insights := none
    status := "processing"
    progress := 0
    error := none
    createdAt := createdAt
    processedAt := none }

/-- The fields of the fixed fallback `InsightsResult` synthesised by the
short-transcript guard (src/index.js lines 300-310). -/
def fallbackFields : List (String × Json) :=
  [("summary", Json.str
      "The recording did not contain enough audible content to generate insights."),
   ("keyConcepts", Json.arr []),
   ("flashcards", Json.arr []),
   ("actionItems", Json.arr
      [Json.str "Re-record the session with clearer speech.",
       Json.str "Ensure the microphone is close to the speaker.",
       Json.str "Avoid long silences during recording."])]

/-- The fixed fallback `InsightsResult`. -/
def fallbackInsights : Json :=
  Json.obj fallbackFields

/-- The failure handler shared by the two `processSession(...).catch`
callers (src/index.js lines 99-104 and 156-161): mark the session failed,
reset progress to 0 and record `err.message || "Unknown error"`. -/
def sessionFail (s : Session) (msg : String) : Session :=
  { s with status := "failed", progress := 0,
           error := some (if msg = "" then "Unknown error" else msg) }

/-- The in-place reset performed by `POST /api/sessions/:id/reprocess`
before re-running the pipeline (src/index.js lines 149-154). -/
def reprocessReset (s : Session) : Session :=
  { s with status := "processing", progress := 0, error := none,
           transcript := "", insights := none, processedAt := none }

/-- `transcribeAudioWithWhisper` (src/index.js lines 335-358): fails when
the API key is missing or the audio file is gone, otherwise one provider
call whose text result is trimmed. -/
def transcribeAudioWithWhisper (hasApiKey : Bool) (fileExists : String → Bool)
    (provider : String → Except String String) (audioPath : String) :
    Except String String :=
  if hasApiKey = false then Except.error "Missing OPENAI_API_KEY in .env"
  else if fileExists audioPath = false then
    Except.error ("Audio file not found: " ++ audioPath)
  else
    match provider audioPath with
    | Except.error m => Except.error m
    | Except.ok r => Except.ok (jsTrim r)

/-- The short-transcript guard condition of `processSession`
(src/index.js line 297): `!transcript || transcript.trim().length < 20`. -/
def shortTranscript (t : String) : Prop :=
  t = "" ∨ (jsTrim t).length < 20

instance (t : String) : Decidable (shortTranscript t) := by
  unfold shortTranscript
  infer_instance

/-- Step 1 of `processSession`: `progress = 10`, `status = "processing"`. -/
def step1 (s : Session) : Session :=
  { s with progress := 10, status := "processing" }

/-- The post-transcription update of `processSession`: record the
transcript, `progress = 60`, `status = "transcribed"`. -/
def step2 (s : Session) (t : String) : Session :=
  { s with transcript := t, progress := 60, status := "transcribed" }

/-- The terminal success update of `processSession`: record insights,
`progress = 100`, `status = "ready"`, `processedAt = now`. -/
def readyWith (s : Session) (ins : Json) (now : String) : Session :=
  { s with insights := some ins, progress := 100, status := "ready",
           processedAt := some now }

/-- `processSession` (src/index.js lines 282-329) combined with its
caller's `catch`: the final session state, paired with whether the
insight generator was invoked. `transcribe` abstracts
`transcribeAudioWithWhisper` applied to the stored audio path, `gen`
abstracts `generateInsightsFromTranscript`, `now` the completion
timestamp. -/
def processResult (s0 : Session) (transcribe : String → Except String String)
    (gen : String → Except String Json) (now : String) : Session × Bool :=
  match transcribe s0.audioPath with
  | Except.error m => (sessionFail (step1 s0) m, false)
  | Except.ok t =>
    if shortTranscript t then
      (readyWith (step2 (step1 s0) t) fallbackInsights now, false)
    else
      match gen t with
      | Except.error m => (sessionFail (step2 (step1 s0) t) m, true)
      | Except.ok ins => (readyWith (step2 (step1 s0) t) ins now, true)

/-- The successive session states a run of `processSession` writes, in
order: the step-1 update, the post-transcription update, and the terminal
update (fallback, success, or the caller's failure handler). -/
def processTrace (s0 : Session) (transcribe : String → Except String String)
    (gen : String → Except String Json) (now : String) : List Session :=
  match transcribe s0.audioPath with
  | Except.error m => [step1 s0, sessionFail (step1 s0) m]
  | Except.ok t =>
    if shortTranscript t then
      [step1 s0, step2 (step1 s0) t,
       readyWith (step2 (step1 s0) t) fallbackInsights now]
    else
      match gen t with
      | Except.error m =>
        [step1 s0, step2 (step1 s0) t, sessionFail (step2 (step1 s0) t) m]
      | Except.ok ins =>
        [step1 s0, step2 (step1 s0) t, readyWith (step2 (step1 s0) t) ins now]

@[simp] lemma step1_status (s : Session) : (step1 s).status = "processing" := rfl

@[simp] lemma step1_progress (s : Session) : (step1 s).progress = 10 := rfl

@[simp] lemma step1_insights (s : Session) : (step1 s).insights = s.insights := rfl

@[simp] lemma step1_audioPath (s : Session) : (step1 s).audioPath = s.audioPath := rfl

@[simp] lemma step2_status (s : Session) (t : String) :
    (step2 s t).status = "transcribed" := rfl

@[simp] lemma step2_progress (s : Session) (t : String) :
    (step2 s t).progress = 60 := rfl

@[simp] lemma step2_insights (s : Session) (t : String) :
    (step2 s t).insights = s.insights := rfl

@[simp] lemma readyWith_status (s : Session) (ins : Json) (now : String) :
    (readyWith s ins now).status = "ready" := rfl

@[simp] lemma readyWith_progress (s : Session) (ins : Json) (now : String) :
    (readyWith s ins now).progress = 100 := rfl

@[simp] lemma readyWith_insights (s : Session) (ins : Json) (now : String) :
    (readyWith s ins now).insights = some ins := rfl

@[simp] lemma sessionFail_status (s : Session) (m : String) :
    (sessionFail s m).status = "failed" := rfl

@[simp] lemma sessionFail_progress (s : Session) (m : String) :
    (sessionFail s m).progress = 0 := rfl

@[simp] lemma sessionFail_insights (s : Session) (m : String) :
    (sessionFail s m).insights = s.insights := rfl

@[simp] lemma sessionFail_error (s : Session) (m : String) :
    (sessionFail s m).error = some (if m = "" then "Unknown error" else m) := rfl

/-- Coherence of the two views of a run: the last state of the trace is
the final state. -/
theorem processTrace_getLast (s0 : Session) (transcribe : String → Except String String)
    (gen : String → Except String Json) (now : String) :
    (processTrace s0 transcribe gen now).getLast? =
      some (processResult s0 transcribe gen now).1 := by
  unfold processTrace processResult
  cases transcribe s0.audioPath with
  | error m => rfl
  | ok t =>
    by_cases h : shortTranscript t
    · simp [h]
    · cases hg : gen t <;> simp [h, hg]

/-! ## Concrete inputs used by the witnesses -/

/-- A concrete freshly created session. -/
def demoSession : Session :=
  newSession "sess-1700000000000" none (some "Algebra lecture")
    "/uploads/1700000000000-a.webm" "1700000000000-a.webm" "2026-01-01T00:00:00.000Z"

/-- A transcription outcome producing the 2-character transcript `um`. -/
def demoTranscribeShort : String → Except String String :=
  fun _ => Except.ok "um"

/-- A transcription outcome that fails with a provider message. -/
def demoTranscribeFail : String → Except String String :=
  fun _ => Except.error "connect ECONNREFUSED"

/-- An insight-generation outcome that fails. -/
def demoGenFail : String → Except String Json :=
  fun _ => Except.error "LLM returned invalid JSON"

/-! ## C1: the short-transcript guard -/

/-- C1: for every transcript whose trimmed length is at least 20 the
pipeline invokes insight generation; for trimmed length below 20
(including the empty transcript) it never invokes insight generation,
stores the fixed fallback `InsightsResult` verbatim, and still reaches
`status = "ready"` with progress 100. -/
theorem guard_short_transcript_fallback
    (s0 : Session) (transcribe : String → Except String String)
    (gen : String → Except String Json) (now t : String)
    (h : transcribe s0.audioPath = Except.ok t) :
    (20 ≤ (jsTrim t).length → (processResult s0 transcribe gen now).2 = true) ∧
    ((jsTrim t).length < 20 →
      (processResult s0 transcribe gen now).2 = false ∧
      (processResult s0 transcribe gen now).1.insights = some fallbackInsights ∧
      (processResult s0 transcribe gen now).1.status = "ready" ∧
      (processResult s0 transcribe gen now).1.progress = 100) := by
  unfold processResult
  rw [h]
  constructor
  · intro hlen
    have hshort : ¬ shortTranscript t := by
      unfold shortTranscript
      push_neg
      refine ⟨?_, by omega⟩
      intro ht
      subst ht
      exact absurd hlen (by decide)
    simp only [hshort, if_false]
    cases hg : gen t <;> simp [hg]
  · intro hlen
    have hshort : shortTranscript t := Or.inr hlen
    simp [hshort]

/-- Witness for C1 at the concrete transcript `um`. -/
theorem guard_short_transcript_fallback_witness :
    (jsTrim "um").length < 20 ∧
    ((processResult demoSession demoTranscribeShort demoGenFail "ts").2 = false ∧
     (processResult demoSession demoTranscribeShort demoGenFail "ts").1.insights =
       some fallbackInsights ∧
     (processResult demoSession demoTranscribeShort demoGenFail "ts").1.status = "ready" ∧
     (processResult demoSession demoTranscribeShort demoGenFail "ts").1.progress = 100) :=
  ⟨by decide,
   (guard_short_transcript_fallback demoSession demoTranscribeShort demoGenFail
      "ts" "um" rfl).2 (by decide)⟩

/-! ## C3: the status/progress state machine -/

/-- The status transitions the specification allows: staying in place,
`processing → transcribed → ready`, or any state to `failed`. -/
def allowedTransition (a b : String) : Prop :=
  a = b ∨ (a = "processing" ∧ b = "transcribed") ∨
    (a = "transcribed" ∧ b = "ready") ∨ b = "failed"

/-- C3: over a pipeline run started on a freshly created or reset session,
the status only ever moves `processing → transcribed → ready` or to
`failed`; progress takes only the values 0, 10, 60, 100; and on a
successful run progress never decreases. -/
theorem status_progress_state_machine
    (s0 : Session) (transcribe : String → Except String String)
    (gen : String → Except String Json) (now : String)
    (hstat : s0.status = "processing") (hprog : s0.progress = 0) :
    List.Chain' (fun x y : Session => allowedTransition x.status y.status)
      (s0 :: processTrace s0 transcribe gen now) ∧
    (∀ x ∈ s0 :: processTrace s0 transcribe gen now,
      x.progress = 0 ∨ x.progress = 10 ∨ x.progress = 60 ∨ x.progress = 100) ∧
    (∀ xl, (s0 :: processTrace s0 transcribe gen now).getLast? = some xl →
      xl.status = "ready" →
      List.Chain' (fun x y : Session => x.progress ≤ y.progress)
        (s0 :: processTrace s0 transcribe gen now)) := by
  unfold processTrace
  cases htr : transcribe s0.audioPath with
  | error m =>
    refine ⟨?_, ?_, ?_⟩
    · simp [List.chain'_cons, allowedTransition, hstat]
    · intro x hx
      simp only [List.mem_cons, List.not_mem_nil, or_false] at hx
      rcases hx with h | h | h <;> subst h <;> simp [hprog]
    · intro xl hl hr
      simp only [List.getLast?_cons_cons, List.getLast?_singleton] at hl
      rw [Option.some_inj] at hl
      subst hl
      exact absurd hr (by simp)
  | ok t =>
    by_cases hs : shortTranscript t
    · refine ⟨?_, ?_, ?_⟩
      · simp [hs, List.chain'_cons, allowedTransition, hstat]
      · intro x hx
        simp only [hs, if_true, List.mem_cons, List.not_mem_nil, or_false] at hx
        rcases hx with h | h | h | h <;> subst h <;> simp [hprog]
      · intro xl hl hr
        simp [hs, List.chain'_cons, hprog]
    · cases hg : gen t with
      | error m =>
        refine ⟨?_, ?_, ?_⟩
        · simp [hs, hg, List.chain'_cons, allowedTransition, hstat]
        · intro x hx
          simp only [hs, if_false, hg, List.mem_cons, List.not_mem_nil, or_false] at hx
          rcases hx with h | h | h | h <;> subst h <;> simp [hprog]
        · intro xl hl hr
          simp only [hs, if_false, hg, List.getLast?_cons_cons,
            List.getLast?_singleton] at hl
          rw [Option.some_inj] at hl
          subst hl
          exact absurd hr (by simp)
      | ok ins =>
        refine ⟨?_, ?_, ?_⟩
        · simp [hs, hg, List.chain'_cons, allowedTransition, hstat]
        · intro x hx
          simp only [hs, if_false, hg, List.mem_cons, List.not_mem_nil, or_false] at hx
          rcases hx with h | h | h | h <;> subst h <;> simp [hprog]
        · intro xl hl hr
          simp [hs, hg, List.chain'_cons, hprog]

/-- Witness for C3: the state machine property on a failing concrete run. -/
theorem status_progress_state_machine_witness :
    List.Chain' (fun x y : Session => allowedTransition x.status y.status)
      (demoSession :: processTrace demoSession demoTranscribeFail demoGenFail "ts") :=
  (status_progress_state_machine demoSession demoTranscribeFail demoGenFail "ts"
    rfl rfl).1

/-! ## C4: failure handling -/

/-- C4: every failure raised during a run — configuration, provider,
parse, or schema failure — terminates the run without retry and leaves
the session with `status = "failed"`, `error` set to the failure message
(or `"Unknown error"` for an empty one) and `progress` reset to 0.
The first two conjuncts cover the two points a run can fail at; the last
three show that a missing API key, unparsable model output and
schema-invalid model output each surface as such an error. -/
theorem failure_recorded_on_session :
    (∀ (s0 : Session) (transcribe : String → Except String String)
       (gen : String → Except String Json) (now m : String),
      transcribe s0.audioPath = Except.error m →
      (processResult s0 transcribe gen now).1.status = "failed" ∧
      (processResult s0 transcribe gen now).1.progress = 0 ∧
      (processResult s0 transcribe gen now).1.error =
        some (if m = "" then "Unknown error" else m) ∧
      (processResult s0 transcribe gen now).2 = false) ∧
    (∀ (s0 : Session) (transcribe : String → Except String String)
       (gen : String → Except String Json) (now t m : String),
      transcribe s0.audioPath = Except.ok t → ¬ shortTranscript t →
      gen t = Except.error m →
      (processResult s0 transcribe gen now).1.status = "failed" ∧
      (processResult s0 transcribe gen now).1.progress = 0 ∧
      (processResult s0 transcribe gen now).1.error =
        some (if m = "" then "Unknown error" else m)) ∧
    (∀ (fileExists : String → Bool) (provider : String → Except String String)
       (audioPath : String),
      transcribeAudioWithWhisper false fileExists provider audioPath =
        Except.error "Missing OPENAI_API_KEY in .env") ∧
    (∀ (complete : String → Except String (List Char)) (transcript : String)
       (raw : List Char),
      complete transcript = Except.ok raw → jsonParse (sanitizeChars raw) = none →
      generateInsightsFromTranscript complete transcript =
        Except.error "LLM returned invalid JSON") ∧
    (∀ (complete : String → Except String (List Char)) (transcript : String)
       (raw : List Char) (j : Json),
      complete transcript = Except.ok raw → jsonParse (sanitizeChars raw) = some j →
      zodInsightsParse j = none →
      generateInsightsFromTranscript complete transcript =
        Except.error "LLM output failed schema validation") := by
  refine ⟨?_, ?_, ?_, ?_, ?_⟩
  · intro s0 transcribe gen now m h
    unfold processResult
    rw [h]
    simp
  · intro s0 transcribe gen now t m ht hs hg
    unfold processResult
    rw [ht]
    simp [hs, hg]
  · intro fileExists provider audioPath
    rfl
  · intro complete transcript raw hc hp
    unfold generateInsightsFromTranscript
    rw [hc]
    simp [hp]
  · intro complete transcript raw j hc hp hv
    unfold generateInsightsFromTranscript
    rw [hc]
    simp [hp, hv]

/-- Witness for C4 at a concrete provider failure. -/
theorem failure_recorded_on_session_witness :
    (processResult demoSession demoTranscribeFail demoGenFail "ts").1.status = "failed" ∧
    (processResult demoSession demoTranscribeFail demoGenFail "ts").1.progress = 0 ∧
    (processResult demoSession demoTranscribeFail demoGenFail "ts").1.error =
      some (if "connect ECONNREFUSED" = "" then "Unknown error"
            else "connect ECONNREFUSED") ∧
    (processResult demoSession demoTranscribeFail demoGenFail "ts").2 = false :=
  failure_recorded_on_session.1 demoSession demoTranscribeFail demoGenFail "ts"
    "connect ECONNREFUSED" rfl

/-! ## C6: insights ⇔ ready -/

/-- C6: at every state a polling reader can observe — after creation,
after each pipeline update, after failure handling, and after a
reprocess reset — the session has non-null `insights` exactly when its
status is `"ready"`. -/
theorem insights_iff_ready_invariant :
    (∀ (id : String) (eventId : Option String) (title : Option String)
       (audioPath audioFilename createdAt : String),
      ((newSession id eventId title audioPath audioFilename createdAt).insights ≠ none ↔
       (newSession id eventId title audioPath audioFilename createdAt).status = "ready")) ∧
    (∀ s : Session,
      ((reprocessReset s).insights ≠ none ↔ (reprocessReset s).status = "ready")) ∧
    (∀ (s0 : Session) (transcribe : String → Except String String)
       (gen : String → Except String Json) (now : String),
      s0.insights = none → s0.status = "processing" →
      ∀ x ∈ s0 :: processTrace s0 transcribe gen now,
        (x.insights ≠ none ↔ x.status = "ready")) := by
  refine ⟨?_, ?_, ?_⟩
  · intro id eventId title audioPath audioFilename createdAt
    simp [newSession]
  · intro s
    simp [reprocessReset]
  · intro s0 transcribe gen now hins hstat
    intro x hx
    unfold processTrace at hx
    cases htr : transcribe s0.audioPath with
    | error m =>
      rw [htr] at hx
      simp only [List.mem_cons, List.not_mem_nil, or_false] at hx
      rcases hx with h | h | h <;> subst h <;> simp [hins, hstat]
    | ok t =>
      rw [htr] at hx
      by_cases hs : shortTranscript t
      · simp only [hs, if_true, List.mem_cons, List.not_mem_nil, or_false] at hx
        rcases hx with h | h | h | h <;> subst h <;> simp [hins, hstat]
      · cases hg : gen t with
        | error m =>
          simp only [hs, if_false, hg, List.mem_cons, List.not_mem_nil,
            or_false] at hx
          rcases hx with h | h | h | h <;> subst h <;> simp [hins, hstat]
        | ok ins =>
          simp only [hs, if_false, hg, List.mem_cons, List.not_mem_nil,
            or_false] at hx
          rcases hx with h | h | h | h <;> subst h <;> simp [hins, hstat]

/-- Witness for C6 on a concrete short-transcript run. -/
theorem insights_iff_ready_invariant_witness :
    ∀ x ∈ demoSession ::
        processTrace demoSession demoTranscribeShort demoGenFail "ts",
      (x.insights ≠ none ↔ x.status = "ready") :=
  insights_iff_ready_invariant.2.2 demoSession demoTranscribeShort demoGenFail "ts"
    rfl rfl

/-! ## C8: the reprocess reset -/

/-- C8: reprocessing mutates the existing session record in place —
transcript cleared to empty, insights, processedAt and error cleared to
null, progress reset to 0, status to `"processing"` — and the identity
fields `id`, `audioPath`, `audioFilename`, `title`, `eventId`,
`createdAt` are unchanged; the rerun consults the transcription provider
only at the same stored audio path. -/
theorem reprocess_resets_in_place (s : Session) :
    (reprocessReset s).transcript = "" ∧
    (reprocessReset s).insights = none ∧
    (reprocessReset s).processedAt = none ∧
    (reprocessReset s).error = none ∧
    (reprocessReset s).progress = 0 ∧
    (reprocessReset s).status = "processing" ∧
    (reprocessReset s).id = s.id ∧
    (reprocessReset s).audioPath = s.audioPath ∧
    (reprocessReset s).audioFilename = s.audioFilename ∧
    (reprocessReset s).title = s.title ∧
    (reprocessReset s).eventId = s.eventId ∧
    (reprocessReset s).createdAt = s.createdAt ∧
    (∀ (transcribe transcribe2 : String → Except String String)
       (gen : String → Except String Json) (now : String),
      transcribe s.audioPath = transcribe2 s.audioPath →
      processResult (reprocessReset s) transcribe gen now =
        processResult (reprocessReset s) transcribe2 gen now) := by
  refine ⟨rfl, rfl, rfl, rfl, rfl, rfl, rfl, rfl, rfl, rfl, rfl, rfl, ?_⟩
  intro transcribe transcribe2 gen now h
  unfold processResult
  have hap : (reprocessReset s).audioPath = s.audioPath := rfl
  rw [hap, h]

/-- Witness for C8 at a concrete session and agreeing transcription
outcomes. -/
theorem reprocess_resets_in_place_witness :
    processResult (reprocessReset demoSession) demoTranscribeShort demoGenFail "ts" =
      processResult (reprocessReset demoSession) demoTranscribeShort demoGenFail "ts" :=
  (reprocess_resets_in_place demoSession).2.2.2.2.2.2.2.2.2.2.2.2
    demoTranscribeShort demoTranscribeShort demoGenFail "ts" rfl

/-! ## C5: the model-output sanitiser -/

lemma isJsWhitespace_backtick : isJsWhitespace backtick = false := by decide

lemma isJsWhitespace_newline : isJsWhitespace '\n' = true := by decide

/-- Dropping from the right leaves a list ending in a non-whitespace
character unchanged. -/
lemma trimRightChars_append_nonws (l : List Char) (c : Char)
    (h : isJsWhitespace c = false) : trimRightChars (l ++ [c]) = l ++ [c] := by
  unfold trimRightChars
  rw [List.reverse_append]
  simp [List.dropWhile_cons, h]

/-- A fenced block is already trimmed: it starts and ends with a
backtick. -/
lemma trimChars_fenced (tag inner : List Char) :
    trimChars (fencedChars tag inner) = fencedChars tag inner := by
  have hsplit : fencedChars tag inner =
      (fenceMarker ++ tag ++ ['\n'] ++ inner ++ ['\n', backtick, backtick]) ++
        [backtick] := by
    simp [fencedChars, fenceMarker]
  unfold trimChars
  have hdrop : (fencedChars tag inner).dropWhile isJsWhitespace =
      fencedChars tag inner := by
    have : fencedChars tag inner =
        backtick :: (backtick :: backtick :: (tag ++ ['\n'] ++ inner ++
          ('\n' :: fenceMarker))) := by
      simp [fencedChars, fenceMarker]
    rw [this, List.dropWhile_cons, isJsWhitespace_backtick]
    simp
  rw [hdrop, hsplit, trimRightChars_append_nonws _ _ isJsWhitespace_backtick]

/-- A fenced block starts with the fence marker. -/
lemma fenced_take3 (tag inner : List Char) :
    (fencedChars tag inner).take 3 = fenceMarker := by
  simp [fencedChars, fenceMarker]

lemma matchesJsonTag_json (rest : List Char) :
    matchesJsonTag ('j' :: 's' :: 'o' :: 'n' :: rest) = true := by
  simp [matchesJsonTag]

lemma matchesJsonTag_newline (rest : List Char) :
    matchesJsonTag ('\n' :: rest) = false := by
  simp [matchesJsonTag]

/-- The `json` language tag makes no difference to sanitisation of a
fenced block. -/
lemma sanitizeChars_fenced_tag_irrelevant (inner : List Char) :
    sanitizeChars (fencedChars jsonTagChars inner) =
      sanitizeChars (fencedChars [] inner) := by
  unfold sanitizeChars
  rw [trimChars_fenced, trimChars_fenced, if_pos (fenced_take3 _ _),
    if_pos (fenced_take3 _ _)]
  unfold stripFences
  have h1 : (fencedChars jsonTagChars inner).drop 3 =
      'j' :: 's' :: 'o' :: 'n' :: '\n' :: (inner ++ '\n' :: fenceMarker) := by
    simp [fencedChars, fenceMarker, jsonTagChars]
  have h2 : (fencedChars [] inner).drop 3 =
      '\n' :: (inner ++ '\n' :: fenceMarker) := by
    simp [fencedChars, fenceMarker]
  rw [h1, h2]
  simp only [matchesJsonTag_json, matchesJsonTag_newline, Bool.false_eq_true,
    if_true, if_false, List.drop_succ_cons, List.drop_zero,
    List.dropWhile_cons, isJsWhitespace_newline]

/-- On a cons list, `dropWhile` is the identity only when the head is not
accepted by the predicate. -/
lemma head_not_of_dropWhile_eq {p : Char → Bool} {a : Char} {l : List Char}
    (h : (a :: l).dropWhile p = a :: l) : p a = false := by
  cases hpa : p a with
  | false => rfl
  | true =>
    rw [List.dropWhile_cons, if_pos hpa] at h
    have hlen := congrArg List.length h
    have hle := (List.dropWhile_suffix (l := l) p).length_le
    simp at hlen
    omega

/-- Sanitising an (untagged) fenced block around trimmed inner text
recovers the inner text. -/
lemma sanitizeChars_fenced_untagged (inner : List Char)
    (h1 : inner.dropWhile isJsWhitespace = inner)
    (h2 : trimRightChars inner = inner) :
    sanitizeChars (fencedChars [] inner) = inner := by
  unfold sanitizeChars
  rw [trimChars_fenced, if_pos (fenced_take3 _ _)]
  unfold stripFences
  have hdr : (fencedChars [] inner).drop 3 =
      '\n' :: (inner ++ '\n' :: fenceMarker) := by
    simp [fencedChars, fenceMarker]
  rw [hdr]
  simp only [matchesJsonTag_newline, Bool.false_eq_true, if_false,
    List.dropWhile_cons, isJsWhitespace_newline, if_true]
  have hrev : inner.reverse.dropWhile isJsWhitespace = inner.reverse := by
    have := congrArg List.reverse h2
    unfold trimRightChars at this
    rwa [List.reverse_reverse] at this
  cases inner with
  | nil =>
    simp [fenceMarker]
    decide
  | cons ch tl =>
    have hch : isJsWhitespace ch = false := head_not_of_dropWhile_eq h1
    have hc : ((ch :: tl) ++ '\n' :: fenceMarker).dropWhile isJsWhitespace =
        (ch :: tl) ++ '\n' :: fenceMarker := by
      rw [List.cons_append, List.dropWhile_cons, hch]
      simp
    rw [hc]
    have hrev2 : ((ch :: tl) ++ '\n' :: fenceMarker).reverse =
        backtick :: backtick :: backtick :: '\n' :: (ch :: tl).reverse := by
      simp [fenceMarker]
    rw [hrev2]
    have htake : (backtick :: backtick :: backtick :: '\n' ::
        (ch :: tl).reverse).take 3 = fenceMarker := by
      simp [fenceMarker]
    rw [if_pos htake]
    simp only [List.drop_succ_cons, List.drop_zero, List.dropWhile_cons,
      isJsWhitespace_newline, if_pos]
    rw [hrev]
    exact List.reverse_reverse _

/-- C5: the sanitisation step of `generateInsightsFromTranscript` leaves
already-trimmed unfenced text unchanged, strips a fenced wrapper the same
way whether or not it carries a `json` language tag, and recovers the
(trimmed) inner text of a fenced block. -/
theorem sanitizer_clean_and_tag_agnostic :
    (∀ l : List Char, trimChars l = l → l.take 3 ≠ fenceMarker →
      sanitizeChars l = l) ∧
    (∀ inner : List Char,
      sanitizeChars (fencedChars jsonTagChars inner) =
        sanitizeChars (fencedChars [] inner)) ∧
    (∀ inner : List Char, inner.dropWhile isJsWhitespace = inner →
      trimRightChars inner = inner →
      sanitizeChars (fencedChars jsonTagChars inner) = inner ∧
      sanitizeChars (fencedChars [] inner) = inner) := by
  refine ⟨?_, ?_, ?_⟩
  · intro l htrim hfence
    unfold sanitizeChars
    rw [htrim, if_neg hfence]
  · exact sanitizeChars_fenced_tag_irrelevant
  · intro inner h1 h2
    have hu := sanitizeChars_fenced_untagged inner h1 h2
    exact ⟨(sanitizeChars_fenced_tag_irrelevant inner).trans hu, hu⟩

/-- Witness for C5 at concrete clean text and a concrete fenced block. -/
theorem sanitizer_clean_and_tag_agnostic_witness :
    (trimChars ("\x7b\"summary\": \"ok\"\x7d".data) = "\x7b\"summary\": \"ok\"\x7d".data ∧
     sanitizeChars ("\x7b\"summary\": \"ok\"\x7d".data) = "\x7b\"summary\": \"ok\"\x7d".data) ∧
    sanitizeChars (fencedChars jsonTagChars ("\x7b\"a\": 1\x7d".data)) =
      "\x7b\"a\": 1\x7d".data :=
  ⟨⟨by decide,
    sanitizer_clean_and_tag_agnostic.1 _ (by decide) (by decide)⟩,
   (sanitizer_clean_and_tag_agnostic.2.2 _ (by decide) (by decide)).1⟩

/-! ## C2: the Insights schema bounds -/

lemma zodString_str (m : Nat) (s : String) :
    zodString m (some (Json.str s)) = if m ≤ s.length then some s else none := rfl

lemma asStrings_map (ks : List String) : asStrings (ks.map Json.str) = some ks := by
  induction ks with
  | nil => rfl
  | cons h t ih => simp [asStrings, ih]

lemma zodStringArray_map (mi ma : Nat) (ks : List String) :
    zodStringArray mi ma (some (Json.arr (ks.map Json.str))) =
      if mi ≤ ks.length ∧ ks.length ≤ ma then some ks else none := by
  simp [zodStringArray, asStrings_map]

lemma zodFlashcard_mk (p : String × String) :
    zodFlashcard (mkFlashcardJson p) =
      if 5 ≤ p.1.length ∧ 5 ≤ p.2.length then some p else none := by
  have hq : zodString 5 (jsonGet [("question", Json.str p.1),
      ("answer", Json.str p.2)] "question") =
      if 5 ≤ p.1.length then some p.1 else none := rfl
  have ha : zodString 5 (jsonGet [("question", Json.str p.1),
      ("answer", Json.str p.2)] "answer") =
      if 5 ≤ p.2.length then some p.2 else none := rfl
  unfold mkFlashcardJson zodFlashcard
  simp only [hq, ha]
  by_cases h1 : 5 ≤ p.1.length <;> by_cases h2 : 5 ≤ p.2.length <;>
    simp [h1, h2]

lemma asFlashcards_map (cards : List (String × String)) :
    asFlashcards (cards.map mkFlashcardJson) =
      if ∀ p ∈ cards, 5 ≤ p.1.length ∧ 5 ≤ p.2.length then some cards
      else none := by
  induction cards with
  | nil => simp [asFlashcards]
  | cons hd tl ih =>
    rw [List.map_cons]
    have hcons : asFlashcards (mkFlashcardJson hd :: List.map mkFlashcardJson tl) =
        match zodFlashcard (mkFlashcardJson hd) with
        | some p => (asFlashcards (List.map mkFlashcardJson tl)).map (p :: ·)
        | none => none := rfl
    rw [hcons, zodFlashcard_mk, ih]
    by_cases h1 : 5 ≤ hd.1.length ∧ 5 ≤ hd.2.length
    · by_cases h2 : ∀ p ∈ tl, 5 ≤ p.1.length ∧ 5 ≤ p.2.length
      · have hall : ∀ p ∈ hd :: tl, 5 ≤ p.1.length ∧ 5 ≤ p.2.length := by
          intro p hp
          rcases List.mem_cons.1 hp with h | h
          · subst h; exact h1
          · exact h2 p h
        rw [if_pos h1, if_pos h2, if_pos hall]
        rfl
      · have hall : ¬ ∀ p ∈ hd :: tl, 5 ≤ p.1.length ∧ 5 ≤ p.2.length :=
          fun hall => h2 (fun p hp => hall p (List.mem_cons_of_mem hd hp))
        rw [if_pos h1, if_neg h2, if_neg hall]
        rfl
    · have hall : ¬ ∀ p ∈ hd :: tl, 5 ≤ p.1.length ∧ 5 ≤ p.2.length :=
        fun hall => h1 (hall hd (List.mem_cons_self hd tl))
      rw [if_neg h1, if_neg hall]

lemma zodFlashcardArray_map (ma : Nat) (cards : List (String × String)) :
    zodFlashcardArray ma (some (Json.arr (cards.map mkFlashcardJson))) =
      if (∀ p ∈ cards, 5 ≤ p.1.length ∧ 5 ≤ p.2.length) ∧ cards.length ≤ ma
      then some cards else none := by
  have hm : zodFlashcardArray ma (some (Json.arr (cards.map mkFlashcardJson))) =
      match asFlashcards (cards.map mkFlashcardJson) with
      | some cs => if cs.length ≤ ma then some cs else none
      | none => none := rfl
  rw [hm, asFlashcards_map]
  by_cases h1 : ∀ p ∈ cards, 5 ≤ p.1.length ∧ 5 ≤ p.2.length
  · by_cases h2 : cards.length ≤ ma
    · have hand : (∀ p ∈ cards, 5 ≤ p.1.length ∧ 5 ≤ p.2.length) ∧
          cards.length ≤ ma := ⟨h1, h2⟩
      rw [if_pos h1, if_pos hand]
      show (if cards.length ≤ ma then some cards else none) = some cards
      exact if_pos h2
    · have hand : ¬ ((∀ p ∈ cards, 5 ≤ p.1.length ∧ 5 ≤ p.2.length) ∧
          cards.length ≤ ma) := fun hc => h2 hc.2
      rw [if_pos h1, if_neg hand]
      show (if cards.length ≤ ma then some cards else none) = none
      exact if_neg h2
  · have hand : ¬ ((∀ p ∈ cards, 5 ≤ p.1.length ∧ 5 ≤ p.2.length) ∧
        cards.length ≤ ma) := fun hc => h1 hc.1
    rw [if_neg h1, if_neg hand]

/-- C2 counterexample: a candidate within all the bounds the claim lists
(summary length 39, one key concept, one flashcard, one action item) that
the validator nevertheless rejects, because the flashcard question and
answer are shorter than 5 characters. -/
theorem insights_schema_bounds_counterexample :
    (20 ≤ ("This summary is certainly long enough." : String).length ∧
     (["concept one"] : List String).length = 1 ∧
     ([("q", "a")] : List (String × String)).length = 1 ∧
     (["review the lecture notes"] : List String).length = 1) ∧
    insightsValid (mkInsightsJson "This summary is certainly long enough."
      ["concept one"] [("q", "a")] ["review the lecture notes"]) = false := by
  constructor
  · exact ⟨by decide, rfl, rfl, rfl⟩
  · decide

/-- C2 (amended): the validator accepts a well-typed candidate exactly
when the summary has length ≥ 20, there are 1–6 key concepts, at most 5
flashcards *each with question and answer of length ≥ 5*, and 1–5 action
items. In particular every candidate violating the claimed bounds is
rejected, but a candidate within those bounds can still be rejected
through the flashcard minimum-length rule the claim omits. -/
theorem insights_schema_characterization (s : String) (ks : List String)
    (cards : List (String × String)) (ai : List String) :
    insightsValid (mkInsightsJson s ks cards ai) = true ↔
      (20 ≤ s.length ∧ (1 ≤ ks.length ∧ ks.length ≤ 6) ∧
       ((∀ p ∈ cards, 5 ≤ p.1.length ∧ 5 ≤ p.2.length) ∧ cards.length ≤ 5) ∧
       (1 ≤ ai.length ∧ ai.length ≤ 5)) := by
  have hsum : jsonGet (mkInsightsFields s ks cards ai) "summary" =
      some (Json.str s) := rfl
  have hkc : jsonGet (mkInsightsFields s ks cards ai) "keyConcepts" =
      some (Json.arr (ks.map Json.str)) := rfl
  have hfc : jsonGet (mkInsightsFields s ks cards ai) "flashcards" =
      some (Json.arr (cards.map mkFlashcardJson)) := rfl
  have hai : jsonGet (mkInsightsFields s ks cards ai) "actionItems" =
      some (Json.arr (ai.map Json.str)) := rfl
  have hstep : zodInsightsParse (mkInsightsJson s ks cards ai) =
      match zodString 20 (jsonGet (mkInsightsFields s ks cards ai) "summary"),
            zodStringArray 1 6 (jsonGet (mkInsightsFields s ks cards ai) "keyConcepts"),
            zodFlashcardArray 5 (jsonGet (mkInsightsFields s ks cards ai) "flashcards"),
            zodStringArray 1 5 (jsonGet (mkInsightsFields s ks cards ai) "actionItems") with
      | some s2, some ks2, some cards2, some ai2 => some (mkInsightsJson s2 ks2 cards2 ai2)
      | _, _, _, _ => none := rfl
  unfold insightsValid
  rw [hstep, hsum, hkc, hfc, hai, zodString_str, zodStringArray_map,
    zodFlashcardArray_map, zodStringArray_map]
  split_ifs with hA hB hC hD
  · exact iff_of_true rfl ⟨hA, hB, hC, hD⟩
  · exact iff_of_false (by simp) (fun hand => hD hand.2.2.2)
  · exact iff_of_false (by simp) (fun hand => hC hand.2.2.1)
  · exact iff_of_false (by simp) (fun hand => hC hand.2.2.1)
  · exact iff_of_false (by simp) (fun hand => hB hand.2.1)
  · exact iff_of_false (by simp) (fun hand => hB hand.2.1)
  · exact iff_of_false (by simp) (fun hand => hB hand.2.1)
  · exact iff_of_false (by simp) (fun hand => hB hand.2.1)
  · exact iff_of_false (by simp) (fun hand => hA hand.1)
  · exact iff_of_false (by simp) (fun hand => hA hand.1)
  · exact iff_of_false (by simp) (fun hand => hA hand.1)
  · exact iff_of_false (by simp) (fun hand => hA hand.1)
  · exact iff_of_false (by simp) (fun hand => hA hand.1)
  · exact iff_of_false (by simp) (fun hand => hA hand.1)
  · exact iff_of_false (by simp) (fun hand => hA hand.1)
  · exact iff_of_false (by simp) (fun hand => hA hand.1)

/-! ## C9: the fallback violates the schema -/

/-- C9: the fixed fallback `InsightsResult` does not satisfy the Insights
schema — its `keyConcepts` array is empty while the schema requires at
least one element (the other three fields pass) — yet a short-transcript
run reaches `status = "ready"` exposing exactly this object. -/
theorem fallback_violates_schema :
    jsonGet fallbackFields "keyConcepts" = some (Json.arr []) ∧
    insightsValid fallbackInsights = false ∧
    zodStringArray 1 6 (jsonGet fallbackFields "keyConcepts") = none ∧
    zodString 20 (jsonGet fallbackFields "summary") ≠ none ∧
    zodFlashcardArray 5 (jsonGet fallbackFields "flashcards") ≠ none ∧
    zodStringArray 1 5 (jsonGet fallbackFields "actionItems") ≠ none ∧
    (processResult demoSession demoTranscribeShort demoGenFail "ts").1.status =
      "ready" ∧
    (processResult demoSession demoTranscribeShort demoGenFail "ts").1.insights =
      some fallbackInsights := by
  refine ⟨rfl, rfl, rfl, by decide, by decide, by decide, rfl, rfl⟩

/-! ## C7: the outline extractor does not strip fences -/

lemma isJsonWs_backtick : isJsonWs backtick = false := by decide

lemma skipWs_backtick (r : List Char) : skipWs (backtick :: r) = backtick :: r := by
  simp [skipWs, List.dropWhile_cons, isJsonWs_backtick]

/-- No JSON value starts with a backtick. -/
lemma parseValue_backtick (fuel : Nat) (r : List Char) :
    parseValue fuel (backtick :: r) = none := by
  cases fuel with
  | zero => rfl
  | succ n =>
    have h1 : ¬ (backtick = lbrace) := by decide
    have h2 : ¬ (backtick = '[') := by decide
    have h3 : ¬ (backtick = '"') := by decide
    have h4 : ¬ (backtick = 't') := by decide
    have h5 : ¬ (backtick = 'f') := by decide
    have h6 : ¬ (backtick = 'n') := by decide
    have h7 : ¬ (backtick = '-' ∨ backtick.isDigit) := by decide
    simp [parseValue, h1, h2, h3, h4, h5, h6, h7]

/-- Text that starts with a backtick is not valid JSON. -/
lemma jsonParse_backtick (r : List Char) : jsonParse (backtick :: r) = none := by
  unfold jsonParse
  rw [skipWs_backtick, parseValue_backtick]

lemma fencedChars_cons (tag inner : List Char) :
    fencedChars tag inner =
      backtick :: (backtick :: backtick ::
        (tag ++ ['\n'] ++ inner ++ ('\n' :: fenceMarker))) := by
  simp [fencedChars, fenceMarker]

/-- The concrete fenced chat reply of the counterexample: valid outline
JSON wrapped in a ```json fence. -/
def fencedOutlineRaw : List Char :=
  ("```json\n\x7b\"highlights\": [], \"exams\": [], \"assignments\": []\x7d\n```").data

/-- The outline JSON inside `fencedOutlineRaw`. -/
def emptyOutlineJson : Json :=
  Json.obj [("highlights", Json.arr []), ("exams", Json.arr []),
            ("assignments", Json.arr [])]

/-- C7 counterexample: a chat reply wrapping valid outline JSON in a
fenced code block makes `extractOutlineFromText` fail with the parse
error, even though the inner JSON is valid under the Outline schema and
the ModelOutputSanitizer would have unwrapped it into parseable text. -/
theorem outline_fenced_parse_error_counterexample :
    extractOutlineFromText (fun _ => Except.ok fencedOutlineRaw)
      ("Course outline text".data) = Except.error "Invalid outline JSON" ∧
    jsonParse (sanitizeChars fencedOutlineRaw) = some emptyOutlineJson ∧
    outlineValid emptyOutlineJson = true := by
  refine ⟨rfl, rfl, rfl⟩

/-- C7 (amended): `extractOutlineFromText` does *not* sanitise the reply
through the ModelOutputSanitizer — it only trims whitespace — so every
reply wrapped in a fenced code block, with or without a `json` tag,
fails `JSON.parse` and surfaces the parse error `Invalid outline JSON`,
whatever the fenced content is. -/
theorem outline_no_fence_stripping (inner doc : List Char) :
    extractOutlineFromText (fun _ => Except.ok (fencedChars jsonTagChars inner))
      doc = Except.error "Invalid outline JSON" ∧
    extractOutlineFromText (fun _ => Except.ok (fencedChars [] inner))
      doc = Except.error "Invalid outline JSON" := by
  constructor
  · have hred : extractOutlineFromText
        (fun _ => Except.ok (fencedChars jsonTagChars inner)) doc =
        match jsonParse (trimChars (fencedChars jsonTagChars inner)) with
        | none => Except.error "Invalid outline JSON"
        | some parsed =>
          if outlineValid parsed then Except.ok parsed
          else Except.error "Outline schema validation failed" := rfl
    rw [hred, trimChars_fenced, fencedChars_cons, jsonParse_backtick]
  · have hred : extractOutlineFromText
        (fun _ => Except.ok (fencedChars [] inner)) doc =
        match jsonParse (trimChars (fencedChars [] inner)) with
        | none => Except.error "Invalid outline JSON"
        | some parsed =>
          if outlineValid parsed then Except.ok parsed
          else Except.error "Outline schema validation failed" := rfl
    rw [hred, trimChars_fenced, fencedChars_cons, jsonParse_backtick]

/-! ## C10: the generators return the raw parsed JSON -/

/-- Whether a parsed JSON object carries a given key. -/
def jsonHasKey : Json → String → Bool
  | Json.obj fs, k => fs.any (fun p => p.1 == k)
  | _, _ => false

/-- A chat reply that satisfies the Insights schema but carries an extra
`mnemonics` field beyond the contract. -/
def extraFieldRaw : List Char :=
  ("\x7b\"summary\": \"A sufficiently long summary sentence.\", " ++
   "\"keyConcepts\": [\"photosynthesis\"], \"flashcards\": [], " ++
   "\"actionItems\": [\"Review notes\"], \"mnemonics\": [\"ATP\"]\x7d").data

/-- What `JSON.parse` yields on `extraFieldRaw`. -/
def extraFieldParsed : Json :=
  Json.obj
    [("summary", Json.str "A sufficiently long summary sentence."),
     ("keyConcepts", Json.arr [Json.str "photosynthesis"]),
     ("flashcards", Json.arr []),
     ("actionItems", Json.arr [Json.str "Review notes"]),
     ("mnemonics", Json.arr [Json.str "ATP"])]

/-- C10: on successful validation both generators return the raw parsed
JSON value — whatever `JSON.parse` produced from the sanitised reply —
not the narrowed value the schema validator builds; concretely, an extra
`mnemonics` field survives into the returned object even though the
validator's narrowed data would drop it. -/
theorem returns_raw_parsed_json :
    (∀ (complete : String → Except String (List Char)) (t : String) (j : Json),
      generateInsightsFromTranscript complete t = Except.ok j →
      ∃ raw, complete t = Except.ok raw ∧
        jsonParse (sanitizeChars raw) = some j ∧
        (zodInsightsParse j).isSome = true) ∧
    (∀ (complete : List Char → Except String (List Char)) (text : List Char)
       (j : Json),
      extractOutlineFromText complete text = Except.ok j →
      ∃ raw, complete (text.take 20000) = Except.ok raw ∧
        jsonParse (trimChars raw) = some j ∧ outlineValid j = true) ∧
    (generateInsightsFromTranscript (fun _ => Except.ok extraFieldRaw) "t" =
       Except.ok extraFieldParsed ∧
     jsonHasKey extraFieldParsed "mnemonics" = true ∧
     (zodInsightsParse extraFieldParsed).map (jsonHasKey · "mnemonics") =
       some false) := by
  refine ⟨?_, ?_, rfl, rfl, rfl⟩
  · intro complete t j h
    unfold generateInsightsFromTranscript at h
    split at h
    · exact absurd h (by simp)
    · rename_i raw heq
      split at h
      · exact absurd h (by simp)
      · rename_i parsed hparse
        split at h
        · rename_i v hvalid
          injection h with hj
          subst hj
          exact ⟨raw, heq, hparse, by simp [hvalid]⟩
        · exact absurd h (by simp)
  · intro complete text j h
    unfold extractOutlineFromText at h
    split at h
    · exact absurd h (by simp)
    · rename_i raw heq
      split at h
      · exact absurd h (by simp)
      · rename_i parsed hparse
        split at h
        · rename_i hvalid
          injection h with hj
          subst hj
          exact ⟨raw, heq, hparse, hvalid⟩
        · exact absurd h (by simp)

/-- Witness for C10 at the concrete extra-field reply. -/
theorem returns_raw_parsed_json_witness :
    ∃ raw, (fun (_ : String) =>
        (Except.ok extraFieldRaw : Except String (List Char))) "t" =
        Except.ok raw ∧
      jsonParse (sanitizeChars raw) = some extraFieldParsed ∧
      (zodInsightsParse extraFieldParsed).isSome = true :=
  returns_raw_parsed_json.1 (fun _ => Except.ok extraFieldRaw) "t"
    extraFieldParsed (by rfl)

end Scholar
